import Mathlib

/-!
Verification of the quiz session engine of the dxquizbot repository.

The definitions below are a shallow embedding of the quiz core module.
The engine exists in two near-identical revisions in the repository:
`src/quiz.js` (first-correct-only scoring) and the unnamed revision
`src/unnamed/part_004` (streak-aware scoring, adopted as canonical by the
design document, section 9).  Each definition's doc comment names the
source function and file it embeds.  Display-only string fields carried by
JavaScript objects purely for message rendering (`username`, `firstName`
inside responses and first-correct markers) are dropped; participants and
first-correct markers are identified by `userId` as in the source logic.

Several functions are declared twice at the top level of `part_004`; the
files are CommonJS modules, so the later declaration wins for every call.
In particular the effective `createParticipant` is the declaration at
lines 1415-1425, which has no `streak`/`maxStreak` fields: reading those
fields of a live participant yields `undefined`, and the streak
arithmetic in `processAnswer` then produces `NaN`.  The embedding models
this with the `JsNum` type below instead of pretending the fields start
at 0.

Timer handles are modelled as opaque `Nat` identifiers: the engine only
ever stores them and cancels them, never inspects them.
-/

namespace DxQuiz

/-- Session status, the string enum `"setup" | "running" | "intermission" |
"completed"` used by `quiz.js` and `part_004`. -/
inductive Status where
  | setup
  | running
  | intermission
  | completed
deriving DecidableEq, Repr

/-- A JavaScript numeric field that may never have been initialised:
`undef` is the result of reading an absent object property
(`undefined`), `nan` is `NaN`, `num n` an actual (non-negative) number.
The streak fields live in this space because the effective
`createParticipant` declaration omits them. -/
inductive JsNum where
  | undef
  | nan
  | num (n : Nat)
deriving DecidableEq, Repr

/-- JavaScript `x++` (the value written back, i.e. `x + 1`): adding 1 to
`undefined` or `NaN` yields `NaN`. -/
def JsNum.inc : JsNum → JsNum
  | JsNum.num n => JsNum.num (n + 1)
  | _ => JsNum.nan

/-- Iterated `JsNum.inc`. -/
def JsNum.incIter : JsNum → Nat → JsNum
  | x, 0 => x
  | x, n + 1 => (JsNum.incIter x n).inc

/-- JavaScript `Math.max`: an `undefined` or `NaN` argument poisons the
result to `NaN`. -/
def jsMax : JsNum → JsNum → JsNum
  | JsNum.num a, JsNum.num b => JsNum.num (max a b)
  | _, _ => JsNum.nan

/-- JavaScript `x >= 2` on a streak value: any comparison involving
`undefined` or `NaN` is false. -/
def JsNum.ge2 : JsNum → Bool
  | JsNum.num n => decide (n ≥ 2)
  | _ => false

/-- JavaScript `a >= b`: false whenever either side is `undefined` or
`NaN`. -/
def jsGe : JsNum → JsNum → Bool
  | JsNum.num a, JsNum.num b => decide (a ≥ b)
  | _, _ => false

/-- A response record, as built in `processAnswer` (`part_004` lines
1100-1160): question index, answer index, submission time, correctness,
submitting user, and the scoring fields filled in after the scoring step
(`isFirst`, `points`, `streakBonus`).  Display-only `username`/`firstName`
fields are dropped. -/
structure Response where
  questionIndex : Int
  answerIndex : Nat
  time : Nat
  isCorrect : Bool
  userId : Nat
  respIsFirst : Bool
  points : Nat
  streakBonus : Nat
deriving DecidableEq, Repr

/-- The `question.firstCorrectAnswer` marker set by `processAnswer`
(`part_004` lines 1126-1132): the user that gave the first correct answer
and the time of that answer (display-only name fields dropped). -/
structure FirstWinner where
  userId : Nat
  time : Nat
deriving DecidableEq, Repr

/-- A question, from `createQuestion` (`part_004` lines 54-61): static
text, options and correct-option index plus the mutable per-run fields
`responses` (append-only) and `firstCorrectAnswer` (absent, i.e. falsy,
until the first correct response arrives). -/
structure Question where
  text : String
  options : List String
  correctAnswer : Nat
  responses : List Response
  firstCorrectAnswer : Option FirstWinner
deriving DecidableEq, Repr

/-- A participant record as the program actually creates it: the
effective `createParticipant` declaration (`part_004` lines 1415-1425,
the later of the file's two declarations, which wins in CommonJS)
defines `userId`, `correctAnswers`, `score`, `responses` and
`lastResponseTime` only.  The `streak`/`maxStreak` fields read and
written by `processAnswer` are absent from the created object, so they
are modelled as `JsNum` values starting at `undefined`.  (The shadowed
declaration at lines 70-83 would have initialised them to 0.) -/
structure Participant where
  userId : Nat
  correctAnswers : Nat
  score : Nat
  responses : List Response
  lastResponseTime : Nat
  streak : JsNum
  maxStreak : JsNum
deriving DecidableEq, Repr

/-- The `quiz.timers` slots (`createNewQuiz`, `part_004` lines 27-31):
at most one outstanding handle per slot; `none` models a cleared slot. -/
structure Timers where
  question : Option Nat
  intermission : Option Nat
  countdown : Option Nat
deriving DecidableEq, Repr

/-- The `quiz.messages` slots (`createNewQuiz`, `part_004` lines 32-35):
message ids of the posted question and timer messages. -/
structure Messages where
  question : Option Nat
  timer : Option Nat
deriving DecidableEq, Repr

/-- The `quiz.settings` record (`createNewQuiz`, `part_004` lines 36-39). -/
structure Settings where
  questionTime : Nat
  intermissionTime : Nat
deriving DecidableEq, Repr

/-- A quiz session, from `createNewQuiz` (`part_004` lines 20-45).  The
JavaScript `participants` `Map` is modelled as an insertion-ordered
association list (JavaScript `Map` iteration follows insertion order,
which `calculateResults` relies on through `Array.from`). -/
structure Quiz where
  adminId : Nat
  status : Status
  questions : List Question
  currentQuestionIndex : Int
  participants : List (Nat × Participant)
  timers : Timers
  messages : Messages
  settings : Settings
  quizId : Option Nat
  title : String
  startTime : Option Nat
  endTime : Option Nat
deriving DecidableEq, Repr

/-- A stored quiz definition as consumed by `loadAndStartQuiz`
(`quiz.js` lines 198-227): the question list and settings copied into the
new session. -/
structure QuizData where
  dataId : Option Nat
  title : String
  questions : List Question
  settings : Settings
deriving DecidableEq, Repr

/-- `createNewQuiz` (`part_004` lines 20-45, identical in `quiz.js`). -/
def createNewQuiz (adminId : Nat) : Quiz :=
  { adminId := adminId
    status := Status.setup
    questions := []
    currentQuestionIndex := -1
    participants := []
    timers := { question := none, intermission := none, countdown := none }
    messages := { question := none, timer := none }
    settings := { questionTime := 10, intermissionTime := 5 }
    quizId := none
    title := ""
    startTime := none
    endTime := none }

/-- `createQuestion` (`part_004` lines 54-61): the `firstCorrectAnswer`
field is absent (falsy) on a fresh question, modelled as `none`. -/
def createQuestion (text : String) (options : List String)
    (correctAnswer : Nat) : Question :=
  { text := text
    options := options
    correctAnswer := correctAnswer
    responses := []
    firstCorrectAnswer := none }

/-- `createParticipant` (`part_004` lines 1415-1425, the effective
declaration): no `streak`/`maxStreak` fields, so reading them on a fresh
participant yields `undefined`. -/
def createParticipant (userId : Nat) : Participant :=
  { userId := userId
    correctAnswers := 0
    score := 0
    responses := []
    lastResponseTime := 0
    streak := JsNum.undef
    maxStreak := JsNum.undef }

/-- `Map.prototype.get` on the participants map: first binding of the key,
`none` when absent. -/
def mapGet : List (Nat × Participant) → Nat → Option Participant
  | [], _ => none
  | (k', v) :: rest, k => if k' = k then some v else mapGet rest k

/-- `Map.prototype.set` on the participants map: replaces the value at an
existing key in place, otherwise appends the binding (insertion order). -/
def mapSet : List (Nat × Participant) → Nat → Participant →
    List (Nat × Participant)
  | [], k, v => [(k, v)]
  | (k', v') :: rest, k, v =>
    if k' = k then (k', v) :: rest else (k', v') :: mapSet rest k v

/-- JavaScript array indexing `quiz.questions[i]` with a possibly signed
index: `undefined` (here `none`) for out-of-range or negative `i`. -/
def getQuestion (qs : List Question) (i : Int) : Option Question :=
  if 0 ≤ i then qs.get? i.toNat else none

/-- In-place update `quiz.questions[i] = q` of the question the engine is
mutating (a no-op for out-of-range `i`, which the source never reaches). -/
def setQuestion (qs : List Question) (i : Int) (q : Question) :
    List Question :=
  if 0 ≤ i then qs.set i.toNat q else qs

/-- Outcome of `processAnswer`: `rejected` for the guard and
missing-question failure paths (`success: false`), `alreadyAnswered` for
the duplicate-submission rejection, and `accepted` carrying the fields of
the success return value (`part_004` lines 1185-1192). -/
inductive AnswerResult where
  | rejected
  | alreadyAnswered
  | accepted (correct : Bool) (first : Bool) (points : Nat)
      (streak : JsNum) (streakBonus : Nat)
deriving DecidableEq, Repr

/-- `processAnswer` (`part_004` lines 1049-1200), the streak-aware
revision that the design document adopts as canonical.  State threading is
explicit: the result pairs the updated session with the returned value.
The `now` argument stands for the `Date.now()` call.  The streak
arithmetic (lines 1139-1147) follows JavaScript number semantics via
`JsNum`: `participant.streak++` on a fresh participant (whose streak
field is `undefined`) produces `NaN`, `Math.max` propagates it, and
`NaN >= 2` is false, so the streak bonus is only reachable after a wrong
answer has set the field to the number 0. -/
def processAnswer (quiz : Quiz) (userId : Nat) (questionIndex : Int)
    (answerIndex : Nat) (now : Nat) : Quiz × AnswerResult :=
  if quiz.status = Status.running ∧
      quiz.currentQuestionIndex = questionIndex then
    match getQuestion quiz.questions questionIndex with
    | none => (quiz, AnswerResult.rejected)
    | some question =>
      let participants1 :=
        match mapGet quiz.participants userId with
        | some _ => quiz.participants
        | none => mapSet quiz.participants userId (createParticipant userId)
      let participant :=
        match mapGet quiz.participants userId with
        | some p => p
        | none => createParticipant userId
      if participant.responses.any
          (fun r => r.questionIndex == questionIndex) then
        ({ quiz with participants := participants1 },
         AnswerResult.alreadyAnswered)
      else
        let isCorrect := answerIndex == question.correctAnswer
        let firstUnset := question.firstCorrectAnswer.isNone
        let isFirst := isCorrect && firstUnset
        let newStreak :=
          if isCorrect then participant.streak.inc else JsNum.num 0
        let streakBonus := if isCorrect && newStreak.ge2 then 1 else 0
        let points :=
          if isCorrect then (if firstUnset then 2 else 1) + streakBonus
          else 0
        let response : Response :=
          { questionIndex := questionIndex
            answerIndex := answerIndex
            time := now
            isCorrect := isCorrect
            userId := userId
            respIsFirst := isFirst
            points := points
            streakBonus := streakBonus }
        let participant' : Participant :=
          { participant with
              responses := participant.responses ++ [response]
              lastResponseTime := now
              correctAnswers :=
                participant.correctAnswers + (if isCorrect then 1 else 0)
              streak := newStreak
              maxStreak :=
                if isCorrect then jsMax participant.maxStreak newStreak
                else participant.maxStreak
              score := participant.score + points }
        let question' : Question :=
          { question with
              responses := question.responses ++ [response]
              firstCorrectAnswer :=
                if isFirst then some { userId := userId, time := now }
                else question.firstCorrectAnswer }
        ({ quiz with
             participants := mapSet participants1 userId participant'
             questions := setQuestion quiz.questions questionIndex question' },
         AnswerResult.accepted isCorrect isFirst points newStreak streakBonus)
  else (quiz, AnswerResult.rejected)

/-- `clearTimers` (`quiz.js` lines 890-897, identical in `part_004`):
cancels and nulls every timer slot. -/
def clearTimers (quiz : Quiz) : Quiz :=
  { quiz with
      timers := { question := none, intermission := none, countdown := none } }

/-- The state mutation of `handleQuestionTimeout` (`quiz.js` lines
470-574).  `part_004` declares the function twice (lines 545 and 947);
the later declaration wins in CommonJS, and its guard (lines 949-956) is
identical to the earlier one's (lines 548-554) and to `quiz.js` lines
472-478, so the guard embedded here is the effective one under
shadowing.  The argument is the session stored for the chat (`none` when
`activeQuizzes.get(chatId)` is `undefined`), `questionIndex` the expected
index the timer was armed for, and `newTimerHandle` the intermission timer
armed on success. -/
def handleQuestionTimeout (stored : Option Quiz) (questionIndex : Int)
    (newTimerHandle : Nat) : Option Quiz :=
  match stored with
  | none => none
  | some quiz =>
    if quiz.status = Status.running ∧
        quiz.currentQuestionIndex = questionIndex then
      let quiz1 := { quiz with status := Status.intermission }
      match getQuestion quiz1.questions questionIndex with
      | none => some quiz1
      | some _ =>
        some { quiz1 with
                 timers := { quiz1.timers with
                               intermission := some newTimerHandle } }
    else some quiz

/-- The comparator passed to `participants.sort` in `calculateResults`
(`part_004` lines 1219-1227, identical in `quiz.js` lines 699-710):
score descending, then correct answers descending, then last response
time ascending. -/
def leaderboardCmp (a b : Participant) : Int :=
  if b.score ≠ a.score then (b.score : Int) - (a.score : Int)
  else if b.correctAnswers ≠ a.correctAnswers then
    (b.correctAnswers : Int) - (a.correctAnswers : Int)
  else (a.lastResponseTime : Int) - (b.lastResponseTime : Int)

/-- The ordering induced by `leaderboardCmp` under JavaScript's stable
`Array.prototype.sort`: `a` may precede `b` when the comparator is
non-positive. -/
def leaderboardLe (a b : Participant) : Bool :=
  leaderboardCmp a b ≤ 0

/-- The leaderboard ordering produced by `calculateResults` (`part_004`
lines 1214-1228): `Array.from(quiz.participants.values())` followed by the
stable sort with `leaderboardCmp`.  (`List.mergeSort` is stable, as is
`Array.prototype.sort`.) -/
def calculateResults (quiz : Quiz) : List Participant :=
  (quiz.participants.map Prod.snd).mergeSort leaderboardLe

/-- `endQuiz` applied to an existing session (`quiz.js` lines 806-831,
identical in `part_004` lines 1356-1390): clears the timers, then sets
status to completed and records the end time.  `now` stands for
`Date.now()`. -/
def endQuizQuiz (quiz : Quiz) (now : Nat) : Quiz :=
  { clearTimers quiz with status := Status.completed, endTime := some now }

/-- The successive session states produced by the body of `endQuiz`, in
statement order: the initial state, the state after `clearTimers(quiz)`,
the state after `quiz.status = "completed"`, and the state after
`quiz.endTime = Date.now()`. -/
def endQuizStates (quiz : Quiz) (now : Nat) : List Quiz :=
  [quiz,
   clearTimers quiz,
   { clearTimers quiz with status := Status.completed },
   { clearTimers quiz with status := Status.completed, endTime := some now }]

/-- `endQuiz` (`quiz.js` lines 806-840) on the stored session: fails when
no session exists, otherwise applies `endQuizQuiz` and reports the final
leaderboard computed by `calculateResults`. -/
def endQuiz (stored : Option Quiz) (now : Nat) :
    Option Quiz × Option (List Participant) :=
  match stored with
  | none => (none, none)
  | some quiz =>
    let quiz' := endQuizQuiz quiz now
    (some quiz', some (calculateResults quiz'))

/-- Outcome of `nextQuestion`: `notActive` for the state-guard failure,
`finished` (carrying the final leaderboard of the `endQuiz` call) when the
incremented index runs past the question list, `posted` when a question is
displayed and its deadline timer armed. -/
inductive NextResult where
  | notActive
  | finished (report : List Participant)
  | posted
deriving DecidableEq, Repr

/-- The state of the session right after the `clearTimers` /
`quiz.status = "running"` / `quiz.currentQuestionIndex++` statements of
`nextQuestion` (`quiz.js` lines 324-328), before the end-of-quiz check. -/
def nextQuestionAdvanced (quiz : Quiz) : Quiz :=
  { clearTimers quiz with
      status := Status.running
      currentQuestionIndex := quiz.currentQuestionIndex + 1 }

/-- `nextQuestion` (`quiz.js` lines 313-382): guarded on status setup or
intermission; clears timers, sets status running, increments the index;
past the end it delegates to `endQuiz`, otherwise it posts the question
(message ids `qMsgId`, `tMsgId`) and arms the deadline timer
(`runVisualTimer` stores `newTimerHandle` in `timers.question`). -/
def nextQuestion (stored : Option Quiz) (now : Nat)
    (qMsgId tMsgId newTimerHandle : Nat) : Option Quiz × NextResult :=
  match stored with
  | none => (none, NextResult.notActive)
  | some quiz =>
    if quiz.status = Status.setup ∨ quiz.status = Status.intermission then
      let quiz2 := nextQuestionAdvanced quiz
      if quiz2.currentQuestionIndex ≥ (quiz2.questions.length : Int) then
        let ended := endQuizQuiz quiz2 now
        (some ended, NextResult.finished (calculateResults ended))
      else
        (some { quiz2 with
                  messages := { question := some qMsgId, timer := some tMsgId }
                  timers := { question := some newTimerHandle,
                              intermission := none, countdown := none } },
         NextResult.posted)
    else (some quiz, NextResult.notActive)

/-- The `activeQuizzes.has(chatId)` / `status !== "completed"` test that
guards session creation (`quiz.js` lines 91-99 and 201-209). -/
def quizActive (stored : Option Quiz) : Bool :=
  match stored with
  | none => false
  | some quiz => quiz.status != Status.completed

/-- `startQuizSetup` (`quiz.js` lines 89-114) on the stored session of one
conversation: rejects when a non-completed session exists, otherwise
installs a fresh session in setup state. -/
def startQuizSetup (stored : Option Quiz) (adminId : Nat) :
    Option Quiz × Bool :=
  if quizActive stored then (stored, false)
  else (some (createNewQuiz adminId), true)

/-- `loadAndStartQuiz` (`quiz.js` lines 198-297) on the stored session of
one conversation: rejects when a non-completed session exists, rejects
empty quiz data, otherwise installs a session carrying the copied
questions and settings, the start time and the countdown timer handle. -/
def loadAndStartQuiz (stored : Option Quiz) (adminId : Nat) (qd : QuizData)
    (now cdHandle : Nat) : Option Quiz × Bool :=
  if quizActive stored then (stored, false)
  else if qd.questions = [] then (stored, false)
  else
    (some { createNewQuiz adminId with
              questions := qd.questions
              settings := qd.settings
              quizId := qd.dataId
              title := qd.title
              startTime := some now
              timers := { question := none, intermission := none,
                          countdown := some cdHandle } },
     true)

/-- Outcome of `addQuestion`: `noSetup` for the guard failure, `added`
carrying the reported question count and whether the max-questions message
was produced. -/
inductive AddResult where
  | noSetup
  | added (questionCount : Nat) (maxReached : Bool)
deriving DecidableEq, Repr

/-- `addQuestion` (`quiz.js` lines 124-154, identical in `part_004` lines
126-156): guarded on setup status; pushes the question unconditionally and
only selects between two success messages on the 50-question limit. -/
def addQuestion (stored : Option Quiz) (text : String)
    (options : List String) (correctAnswer : Nat) :
    Option Quiz × AddResult :=
  match stored with
  | none => (none, AddResult.noSetup)
  | some quiz =>
    if quiz.status = Status.setup then
      let quiz' := { quiz with
                       questions :=
                         quiz.questions ++
                           [createQuestion text options correctAnswer] }
      (some quiz',
       AddResult.added quiz'.questions.length
         (decide (quiz'.questions.length ≥ 50)))
    else (some quiz, AddResult.noSetup)

/-- One serialized entry into a session's critical section: an answer
submission by the observed user, a question-timeout callback, or the
intermission-expiry call of `nextQuestion`. -/
inductive Event where
  | answer (questionIndex : Int) (answerIndex : Nat) (now : Nat)
  | timeout (questionIndex : Int) (newTimerHandle : Nat)
  | advance (now qMsgId tMsgId newTimerHandle : Nat)
deriving DecidableEq, Repr

/-- Applies one event to the session, returning the answer result when
the event was an answer submission. -/
def applyEvent (quiz : Quiz) (userId : Nat) :
    Event → Quiz × Option AnswerResult
  | Event.answer qI aI now =>
    let r := processAnswer quiz userId qI aI now
    (r.1, some r.2)
  | Event.timeout qI h =>
    ((handleQuestionTimeout (some quiz) qI h).getD quiz, none)
  | Event.advance now q t h =>
    ((nextQuestion (some quiz) now q t h).1.getD quiz, none)

/-- Applies a list of events in order, collecting the answer results of
the observed user's submissions. -/
def runEvents (quiz : Quiz) (userId : Nat) :
    List Event → Quiz × List AnswerResult
  | [] => (quiz, [])
  | e :: rest =>
    let step := applyEvent quiz userId e
    let next := runEvents step.1 userId rest
    (next.1,
     match step.2 with
     | some r => r :: next.2
     | none => next.2)

/-- Whether an answer outcome is an accepted correct answer. -/
def isAcceptedCorrect : AnswerResult → Bool
  | AnswerResult.accepted true _ _ _ _ => true
  | _ => false

/-- The current streak of a user as stored in the session (`undefined`
when the user has not yet become a participant, matching what
`createParticipant` would give them). -/
def streakOf (quiz : Quiz) (userId : Nat) : JsNum :=
  match mapGet quiz.participants userId with
  | some p => p.streak
  | none => JsNum.undef

/-- Placeholder question used only as the `getD` default when indexing the
question list inside invariants; the indices quantified over are always in
range, so it is never actually selected. -/
def defaultQuestion : Question := createQuestion "" [] 0

/-- First-correct exclusivity invariant of one question: at most one
response carries the first-correct flag; a flagged response is the
earliest correct response; and the `firstCorrectAnswer` marker is unset
exactly when no correct response exists and otherwise names the earliest
correct response, which is flagged. -/
def firstCorrectOk (qn : Question) : Prop :=
  (qn.responses.filter (fun r => r.respIsFirst)).length ≤ 1 ∧
  (∀ r ∈ qn.responses, r.respIsFirst = true →
     qn.responses.find? (fun r2 => r2.isCorrect) = some r) ∧
  (qn.responses.find? (fun r2 => r2.isCorrect) = none →
     qn.firstCorrectAnswer = none) ∧
  (∀ r ∈ qn.responses,
     qn.responses.find? (fun r2 => r2.isCorrect) = some r →
       qn.firstCorrectAnswer = some { userId := r.userId, time := r.time } ∧
       r.respIsFirst = true)

/-- The participants map binds each user id at most once. -/
def keysNodup (m : List (Nat × Participant)) : Prop :=
  m.Pairwise (fun a b => a.1 ≠ b.1)

/-- At-most-one-response invariant of a session: user ids are unique in
the participants map; each participant holds at most one response per
question index; every response stored under question `n` carries index `n`
and also appears in its submitter's response list; and each question holds
at most one response per user. -/
def respOnce (quiz : Quiz) : Prop :=
  keysNodup quiz.participants ∧
  (∀ kp ∈ quiz.participants,
     kp.2.responses.Pairwise
       (fun r1 r2 => r1.questionIndex ≠ r2.questionIndex)) ∧
  (∀ n ∈ List.range quiz.questions.length,
     ∀ r ∈ (quiz.questions.getD n defaultQuestion).responses,
       r.questionIndex = (n : Int) ∧
       ∃ kp ∈ quiz.participants, kp.1 = r.userId ∧ r ∈ kp.2.responses) ∧
  (∀ n ∈ List.range quiz.questions.length,
     (quiz.questions.getD n defaultQuestion).responses.Pairwise
       (fun r1 r2 => r1.userId ≠ r2.userId))

/-- All timer slots of the session are cancelled. -/
def timersCleared (quiz : Quiz) : Prop :=
  quiz.timers.question = none ∧ quiz.timers.intermission = none ∧
    quiz.timers.countdown = none

/-- The ordering property claimed for `endQuiz`: along its successive
states, whenever the timers have been cancelled the status is already
completed (i.e. the status flip happens no later than the cancellation). -/
def statusSetBeforeCancel (quiz : Quiz) (now : Nat) : Prop :=
  ∀ q ∈ endQuizStates quiz now, timersCleared q → q.status = Status.completed

/-- The leaderboard order as the comparator realises it, spelled out on
the sort keys: higher score first, then more correct answers, then earlier
last response. -/
def leaderboardKeyLe (a b : Participant) : Prop :=
  b.score < a.score ∨
    (a.score = b.score ∧
      (b.correctAnswers < a.correctAnswers ∨
        (a.correctAnswers = b.correctAnswers ∧
          a.lastResponseTime ≤ b.lastResponseTime)))

instance (qn : Question) : Decidable (firstCorrectOk qn) := by
  unfold firstCorrectOk; infer_instance

instance (m : List (Nat × Participant)) : Decidable (keysNodup m) := by
  unfold keysNodup; infer_instance

instance (quiz : Quiz) : Decidable (respOnce quiz) := by
  unfold respOnce; infer_instance

instance (quiz : Quiz) : Decidable (timersCleared quiz) := by
  unfold timersCleared; infer_instance

instance (quiz : Quiz) (now : Nat) :
    Decidable (statusSetBeforeCancel quiz now) := by
  unfold statusSetBeforeCancel; infer_instance

instance (a b : Participant) : Decidable (leaderboardKeyLe a b) := by
  unfold leaderboardKeyLe; infer_instance

/-- A four-option sample question whose correct answer is option 1. -/
def sampleQuestion : Question := createQuestion "q" ["a", "b", "c", "d"] 1

/-- A running single-question session with an armed deadline timer. -/
def sampleRunningQuiz : Quiz :=
  { createNewQuiz 9 with
      status := Status.running
      questions := [sampleQuestion]
      currentQuestionIndex := 0
      timers := { question := some 7, intermission := none, countdown := none }
      startTime := some 0 }

/-- The response user 1 already gave to question 0 in `dupQuiz`. -/
def sampleResponse : Response :=
  { questionIndex := 0
    answerIndex := 1
    time := 10
    isCorrect := true
    userId := 1
    respIsFirst := true
    points := 2
    streakBonus := 0 }

/-- The `dupQuiz` record of user 1 after that first answer: the streak
fields are `NaN`, exactly as `processAnswer` leaves them for a fresh
participant. -/
def sampleAnswered : Participant :=
  { createParticipant 1 with
      responses := [sampleResponse]
      score := 2
      correctAnswers := 1
      streak := JsNum.nan
      maxStreak := JsNum.nan
      lastResponseTime := 10 }

/-- A running session in which user 1 has already answered question 0. -/
def dupQuiz : Quiz :=
  { sampleRunningQuiz with
      participants := [(1, sampleAnswered)]
      questions :=
        [{ sampleQuestion with
             responses := [sampleResponse]
             firstCorrectAnswer := some { userId := 1, time := 10 } }] }

/-- A participant with fixed sort keys, used to exhibit full-key ties. -/
def tieParticipant (userId : Nat) : Participant :=
  { createParticipant userId with
      score := 5
      correctAnswers := 3
      lastResponseTime := 100 }

/-- Two participants with identical sort keys, supplied in one order. -/
def tieQuizA : Quiz :=
  { sampleRunningQuiz with
      participants := [(1, tieParticipant 1), (2, tieParticipant 2)] }

/-- The same two participants supplied in the opposite order. -/
def tieQuizB : Quiz :=
  { sampleRunningQuiz with
      participants := [(2, tieParticipant 2), (1, tieParticipant 1)] }

/-- A setup-state session that already holds 50 questions. -/
def fullSetupQuiz : Quiz :=
  { createNewQuiz 9 with questions := List.replicate 50 sampleQuestion }

/-- `dupQuiz` during the intermission after its only question: advancing
from here runs off the end of the question list. -/
def sampleIntermissionQuiz : Quiz :=
  { dupQuiz with status := Status.intermission }

/-- A running two-question session with no answers yet. -/
def twoQuestionQuiz : Quiz :=
  { createNewQuiz 9 with
      status := Status.running
      questions := [sampleQuestion, sampleQuestion]
      currentQuestionIndex := 0
      timers := { question := some 7, intermission := none, countdown := none }
      startTime := some 0 }

/-- A serialized history: user answers question 0 correctly, its deadline
fires, the intermission expires and question 1 is posted, and the user
answers question 1 correctly as well. -/
def sampleEvents : List Event :=
  [Event.answer 0 1 20, Event.timeout 0 8, Event.advance 30 1 2 3,
   Event.answer 1 1 40]

/-- A one-question stored quiz definition. -/
def sampleQuizData : QuizData :=
  { dataId := some 3
    title := "t"
    questions := [sampleQuestion]
    settings := { questionTime := 10, intermissionTime := 5 } }

theorem mapGet_mapSet_self (m : List (Nat × Participant)) (k : Nat)
    (v : Participant) : mapGet (mapSet m k v) k = some v := by
  induction m with
  | nil => simp [mapGet, mapSet]
  | cons kv rest ih =>
    obtain ⟨k', v'⟩ := kv
    by_cases h : k' = k
    · simp [mapSet, h, mapGet]
    · simp [mapSet, h, mapGet, ih]

theorem mapGet_mapSet_ne (m : List (Nat × Participant)) (k u : Nat)
    (v : Participant) (h : u ≠ k) :
    mapGet (mapSet m k v) u = mapGet m u := by
  have hku : ¬ k = u := fun hh => h hh.symm
  induction m with
  | nil => simp [mapGet, mapSet, hku]
  | cons kv rest ih =>
    obtain ⟨k', v'⟩ := kv
    by_cases hk : k' = k
    · subst hk
      simp [mapSet, mapGet, hku]
    · simp [mapSet, hk, mapGet, ih]

theorem mem_mapSet (m : List (Nat × Participant)) (k : Nat)
    (v : Participant) (kp : Nat × Participant) (h : kp ∈ mapSet m k v) :
    kp ∈ m ∨ kp = (k, v) := by
  induction m with
  | nil => simpa [mapSet] using h
  | cons kv rest ih =>
    obtain ⟨k', v'⟩ := kv
    by_cases hk : k' = k
    · have h' : kp = (k, v) ∨ kp ∈ rest := by simpa [mapSet, hk] using h
      rcases h' with h1 | h1
      · exact Or.inr h1
      · exact Or.inl (List.mem_cons_of_mem _ h1)
    · have h' : kp = (k', v') ∨ kp ∈ mapSet rest k v := by
        simpa [mapSet, hk] using h
      rcases h' with h1 | h1
      · exact Or.inl (by simp [h1])
      · rcases ih h1 with h2 | h2
        · exact Or.inl (List.mem_cons_of_mem _ h2)
        · exact Or.inr h2

theorem self_mem_mapSet (m : List (Nat × Participant)) (k : Nat)
    (v : Participant) : (k, v) ∈ mapSet m k v := by
  induction m with
  | nil => simp [mapSet]
  | cons kv rest ih =>
    obtain ⟨k', v'⟩ := kv
    by_cases hk : k' = k
    · subst hk; simp [mapSet]
    · simp [mapSet, hk, ih]

theorem mem_mapSet_of_mem (m : List (Nat × Participant)) (k : Nat)
    (v : Participant) (kp : Nat × Participant) (hm : kp ∈ m)
    (hne : kp.1 ≠ k) : kp ∈ mapSet m k v := by
  induction m with
  | nil => cases hm
  | cons kv rest ih =>
    obtain ⟨k', v'⟩ := kv
    rcases List.mem_cons.1 hm with h1 | h1
    · subst h1
      have : k' ≠ k := hne
      simp [mapSet, this]
    · by_cases hk : k' = k
      · subst hk
        simp [mapSet, List.mem_cons_of_mem _ h1]
      · simp [mapSet, hk, ih h1]

theorem keysNodup_mapSet (m : List (Nat × Participant)) (k : Nat)
    (v : Participant) : keysNodup m → keysNodup (mapSet m k v) := by
  unfold keysNodup
  induction m with
  | nil => intro _; simp [mapSet]
  | cons kv rest ih =>
    obtain ⟨k', v'⟩ := kv
    intro h
    rcases (List.pairwise_cons.1 h) with ⟨hhead, htail⟩
    by_cases hk : k' = k
    · subst hk
      simp only [mapSet, if_pos rfl]
      exact List.pairwise_cons.2 ⟨fun b hb => hhead b hb, htail⟩
    · simp only [mapSet, if_neg hk]
      refine List.pairwise_cons.2 ⟨?_, ih htail⟩
      intro b hb
      rcases mem_mapSet rest k v b hb with h1 | h1
      · exact hhead b h1
      · subst h1; exact hk

theorem mem_of_mapGet_eq_some (m : List (Nat × Participant)) (u : Nat)
    (p : Participant) (h : mapGet m u = some p) : (u, p) ∈ m := by
  induction m with
  | nil => simp [mapGet] at h
  | cons kv rest ih =>
    obtain ⟨k', v'⟩ := kv
    by_cases hk : k' = u
    · subst hk
      simp [mapGet] at h
      simp [h]
    · simp [mapGet, hk] at h
      exact List.mem_cons_of_mem _ (ih h)

theorem mapGet_eq_some_of_mem (m : List (Nat × Participant))
    (kp : Nat × Participant) (hn : keysNodup m) (hm : kp ∈ m) :
    mapGet m kp.1 = some kp.2 := by
  induction m with
  | nil => cases hm
  | cons kv rest ih =>
    obtain ⟨k', v'⟩ := kv
    rcases (List.pairwise_cons.1 hn) with ⟨hhead, htail⟩
    rcases List.mem_cons.1 hm with h1 | h1
    · subst h1; simp [mapGet]
    · have hne : k' ≠ kp.1 := hhead kp h1
      simp [mapGet, hne, ih htail h1]

theorem mapGet_eq_none_of_not_mem (m : List (Nat × Participant)) (u : Nat)
    (h : mapGet m u = none) : ∀ kp ∈ m, kp.1 ≠ u := by
  induction m with
  | nil => intro kp hkp; cases hkp
  | cons kv rest ih =>
    obtain ⟨k', v'⟩ := kv
    intro kp hkp
    by_cases hk : k' = u
    · simp [mapGet, hk] at h
    · simp [mapGet, hk] at h
      rcases List.mem_cons.1 hkp with h1 | h1
      · subst h1; exact hk
      · exact ih h kp h1

theorem getQuestion_natCast (qs : List Question) (n : Nat) :
    getQuestion qs (n : Int) = qs.get? n := by
  simp [getQuestion]

theorem getQuestion_eq_some_iff (qs : List Question) (i : Int)
    (q : Question) :
    getQuestion qs i = some q ↔
      0 ≤ i ∧ i.toNat < qs.length ∧ qs.get? i.toNat = some q := by
  constructor
  · intro h
    by_cases h0 : 0 ≤ i
    · have h2 : qs.get? i.toNat = some q := by simpa [getQuestion, h0] using h
      have hlt : i.toNat < qs.length := by
        by_contra hge
        rw [List.get?_eq_none.2 (by omega)] at h2
        cases h2
      exact ⟨h0, hlt, h2⟩
    · simp [getQuestion, h0] at h
  · rintro ⟨h0, _, h2⟩
    simpa [getQuestion, h0] using h2

theorem setQuestion_length (qs : List Question) (i : Int) (q : Question) :
    (setQuestion qs i q).length = qs.length := by
  by_cases h0 : 0 ≤ i <;> simp [setQuestion, h0]

theorem getQuestion_setQuestion_self (qs : List Question) (i : Int)
    (q : Question) (h0 : 0 ≤ i) (hlt : i.toNat < qs.length) :
    getQuestion (setQuestion qs i q) i = some q := by
  simp [getQuestion, setQuestion, h0, List.get?_eq_getElem?,
    List.getElem?_set_self hlt]

theorem getQuestion_setQuestion_ne (qs : List Question) (i j : Int)
    (q : Question) (hne : j ≠ i) :
    getQuestion (setQuestion qs i q) j = getQuestion qs j := by
  by_cases h0 : 0 ≤ i
  · by_cases hj : 0 ≤ j
    · have : i.toNat ≠ j.toNat := by omega
      simp [getQuestion, setQuestion, h0, hj, List.get?_eq_getElem?,
        List.getElem?_set_ne this]
    · simp [getQuestion, setQuestion, h0, hj]
  · simp [setQuestion, h0]

theorem processAnswer_not_running (quiz : Quiz) (userId : Nat) (qI : Int)
    (aI now : Nat)
    (h : ¬(quiz.status = Status.running ∧
        quiz.currentQuestionIndex = qI)) :
    processAnswer quiz userId qI aI now = (quiz, AnswerResult.rejected) := by
  simp only [processAnswer, if_neg h]

theorem processAnswer_no_question (quiz : Quiz) (userId : Nat) (qI : Int)
    (aI now : Nat) (hst : quiz.status = Status.running)
    (hidx : quiz.currentQuestionIndex = qI)
    (hq : getQuestion quiz.questions qI = none) :
    processAnswer quiz userId qI aI now = (quiz, AnswerResult.rejected) := by
  simp [processAnswer, hst, hidx, hq]

theorem processAnswer_duplicate (quiz : Quiz) (userId : Nat) (qI : Int)
    (aI now : Nat) (question : Question) (p0 : Participant)
    (hst : quiz.status = Status.running)
    (hidx : quiz.currentQuestionIndex = qI)
    (hq : getQuestion quiz.questions qI = some question)
    (hp : mapGet quiz.participants userId = some p0)
    (hdup : p0.responses.any (fun r => r.questionIndex == qI) = true) :
    processAnswer quiz userId qI aI now =
      (quiz, AnswerResult.alreadyAnswered) := by
  simp [processAnswer, hst, hidx, hq, hp, hdup]
  rw [← hst, ← hidx]

theorem processAnswer_accept (quiz : Quiz) (userId : Nat) (qI : Int)
    (aI now : Nat) (question : Question) (p0 : Participant)
    (pts1 : List (Nat × Participant))
    (hst : quiz.status = Status.running)
    (hidx : quiz.currentQuestionIndex = qI)
    (hq : getQuestion quiz.questions qI = some question)
    (hp : (mapGet quiz.participants userId = some p0 ∧
            pts1 = quiz.participants) ∨
          (mapGet quiz.participants userId = none ∧
            p0 = createParticipant userId ∧
            pts1 = mapSet quiz.participants userId
              (createParticipant userId)))
    (hdup : p0.responses.any (fun r => r.questionIndex == qI) = false) :
    processAnswer quiz userId qI aI now =
      (let isCorrect := aI == question.correctAnswer
       let firstUnset := question.firstCorrectAnswer.isNone
       let isFirst := isCorrect && firstUnset
       let newStreak := if isCorrect then p0.streak.inc else JsNum.num 0
       let streakBonus := if isCorrect && newStreak.ge2 then 1 else 0
       let points :=
         if isCorrect then (if firstUnset then 2 else 1) + streakBonus
         else 0
       let response : Response :=
         { questionIndex := qI
           answerIndex := aI
           time := now
           isCorrect := isCorrect
           userId := userId
           respIsFirst := isFirst
           points := points
           streakBonus := streakBonus }
       ({ quiz with
            participants := mapSet pts1 userId
              { p0 with
                  responses := p0.responses ++ [response]
                  lastResponseTime := now
                  correctAnswers :=
                    p0.correctAnswers + (if isCorrect then 1 else 0)
                  streak := newStreak
                  maxStreak :=
                    if isCorrect then jsMax p0.maxStreak newStreak
                    else p0.maxStreak
                  score := p0.score + points }
            questions := setQuestion quiz.questions qI
              { question with
                  responses := question.responses ++ [response]
                  firstCorrectAnswer :=
                    if isFirst then some { userId := userId, time := now }
                    else question.firstCorrectAnswer } },
        AnswerResult.accepted isCorrect isFirst points newStreak
          streakBonus)) := by
  rcases hp with ⟨hp, rfl⟩ | ⟨hp, hp0, rfl⟩
  · simp [processAnswer, hst, hidx, hq, hp, hdup]
  · subst hp0
    simp [processAnswer, hst, hidx, hq, hp, hdup]

/-- C3: the question-timeout handler mutates no session state unless the
session exists, its status is running and its current question index
equals the index the timer was armed for; in particular it is the
identity on the stored state whenever the guard fails. -/
theorem claim3_timeout_guard (stored : Option Quiz) (questionIndex : Int)
    (newTimerHandle : Nat)
    (hguard : ∀ quiz, stored = some quiz →
      ¬(quiz.status = Status.running ∧
          quiz.currentQuestionIndex = questionIndex)) :
    handleQuestionTimeout stored questionIndex newTimerHandle = stored := by
  cases stored with
  | none => rfl
  | some quiz =>
    have h := hguard quiz rfl
    simp [handleQuestionTimeout, if_neg h]

/-- C3 witness: a deadline timer for question 0 firing after the admin
has ended the quiz (status completed) changes nothing. -/
theorem claim3_timeout_guard_witness :
    handleQuestionTimeout (some (endQuizQuiz sampleRunningQuiz 99)) 0 11 =
      some (endQuizQuiz sampleRunningQuiz 99) :=
  claim3_timeout_guard (some (endQuizQuiz sampleRunningQuiz 99)) 0 11
    (by intro quiz hq; injection hq with hh; rw [← hh]; decide)

/-- C2 counterexample: `endQuiz` does NOT set the status to completed
before cancelling the timers.  On a concrete running session with an
armed deadline timer, the intermediate state of `endQuiz` in which the
timers have just been cancelled still has status running. -/
theorem claim2_counterexample :
    ¬ statusSetBeforeCancel sampleRunningQuiz 100 := by decide

/-- C2 amended: `endQuiz` cancels the timers first and only then sets the
status to completed, both inside the same synchronous step; after
`endQuiz` the session is completed with all timers cleared, and a
question timer callback that still fires afterwards observes the terminal
status and does nothing. -/
theorem claim2_end_quiz (quiz : Quiz) (now : Nat) (i : Int)
    (newTimerHandle : Nat) :
    (endQuizQuiz quiz now).status = Status.completed ∧
    timersCleared (endQuizQuiz quiz now) ∧
    handleQuestionTimeout (some (endQuizQuiz quiz now)) i newTimerHandle =
      some (endQuizQuiz quiz now) := by
  refine ⟨rfl, ⟨rfl, rfl, rfl⟩, ?_⟩
  simp [handleQuestionTimeout, endQuizQuiz, clearTimers]

/-- C9: while a non-completed session exists for a conversation, both
`startQuizSetup` and `loadAndStartQuiz` fail with the already-active
error and leave the stored session unchanged. -/
theorem claim9_single_active (stored : Option Quiz) (adminId : Nat)
    (qd : QuizData) (now cdHandle : Nat) (quiz : Quiz)
    (hs : stored = some quiz) (hact : quiz.status ≠ Status.completed) :
    startQuizSetup stored adminId = (some quiz, false) ∧
    loadAndStartQuiz stored adminId qd now cdHandle = (some quiz, false) := by
  subst hs
  have h : quizActive (some quiz) = true := by
    simp [quizActive, bne_iff_ne, hact]
  simp [startQuizSetup, loadAndStartQuiz, h]

/-- C9 witness: with a running session stored, both creation entry points
fail and leave it in place. -/
theorem claim9_single_active_witness :
    startQuizSetup (some sampleRunningQuiz) 5 =
      (some sampleRunningQuiz, false) ∧
    loadAndStartQuiz (some sampleRunningQuiz) 5 sampleQuizData 0 1 =
      (some sampleRunningQuiz, false) :=
  claim9_single_active (some sampleRunningQuiz) 5 sampleQuizData 0 1
    sampleRunningQuiz rfl (by decide)

/-- C10: on a quiz in setup state, `addQuestion` always appends the
submitted question and reports success, whatever the current length of
the question list; the 50-question limit only changes the success message
(the `maxReached` flag), never rejects a submission. -/
theorem claim10_add_question_unbounded (quiz : Quiz) (text : String)
    (options : List String) (correctAnswer : Nat)
    (hst : quiz.status = Status.setup) :
    addQuestion (some quiz) text options correctAnswer =
      (some { quiz with
                questions :=
                  quiz.questions ++ [createQuestion text options correctAnswer] },
       AddResult.added (quiz.questions.length + 1)
         (decide (quiz.questions.length + 1 ≥ 50))) := by
  simp [addQuestion, hst]

/-- C10 witness: a session already holding 50 questions still accepts a
51st question. -/
theorem claim10_add_question_unbounded_witness :
    addQuestion (some fullSetupQuiz) "t" ["a", "b", "c", "d"] 0 =
      (some { fullSetupQuiz with
                questions :=
                  fullSetupQuiz.questions ++
                    [createQuestion "t" ["a", "b", "c", "d"] 0] },
       AddResult.added 51 true) := by
  rw [claim10_add_question_unbounded fullSetupQuiz "t" ["a", "b", "c", "d"] 0
    (by decide)]
  decide

/-- C8: `nextQuestion` is only effective when the status is setup or
intermission (otherwise the stored state is returned unchanged); when
effective it increments `currentQuestionIndex` by exactly 1, and when the
incremented index reaches the number of questions the session becomes
completed and the finalizer (`calculateResults` via `endQuiz`) is invoked
instead of a question being posted. -/
theorem claim8_progression :
    (∀ stored now qMsgId tMsgId newTimerHandle,
      (∀ quiz, stored = some quiz →
          quiz.status ≠ Status.setup ∧ quiz.status ≠ Status.intermission) →
      nextQuestion stored now qMsgId tMsgId newTimerHandle =
        (stored, NextResult.notActive)) ∧
    (∀ quiz, (nextQuestionAdvanced quiz).currentQuestionIndex =
        quiz.currentQuestionIndex + 1) ∧
    (∀ quiz now qMsgId tMsgId newTimerHandle,
      (quiz.status = Status.setup ∨ quiz.status = Status.intermission) →
      quiz.currentQuestionIndex + 1 ≥ (quiz.questions.length : Int) →
      nextQuestion (some quiz) now qMsgId tMsgId newTimerHandle =
        (some (endQuizQuiz (nextQuestionAdvanced quiz) now),
         NextResult.finished
           (calculateResults (endQuizQuiz (nextQuestionAdvanced quiz) now))) ∧
      (endQuizQuiz (nextQuestionAdvanced quiz) now).status =
        Status.completed ∧
      (endQuizQuiz (nextQuestionAdvanced quiz) now).currentQuestionIndex =
        quiz.currentQuestionIndex + 1) ∧
    (∀ quiz now qMsgId tMsgId newTimerHandle,
      (quiz.status = Status.setup ∨ quiz.status = Status.intermission) →
      quiz.currentQuestionIndex + 1 < (quiz.questions.length : Int) →
      nextQuestion (some quiz) now qMsgId tMsgId newTimerHandle =
        (some { nextQuestionAdvanced quiz with
                  messages := { question := some qMsgId,
                                timer := some tMsgId }
                  timers := { question := some newTimerHandle,
                              intermission := none, countdown := none } },
         NextResult.posted) ∧
      (nextQuestionAdvanced quiz).status = Status.running) := by
  refine ⟨?_, ?_, ?_, ?_⟩
  · intro stored now qMsgId tMsgId newTimerHandle hguard
    cases stored with
    | none => rfl
    | some quiz =>
      have h := hguard quiz rfl
      have h2 : ¬(quiz.status = Status.setup ∨
          quiz.status = Status.intermission) := by
        rcases h with ⟨h1, h2⟩
        intro hc
        rcases hc with hc | hc
        · exact h1 hc
        · exact h2 hc
      simp [nextQuestion, if_neg h2]
  · intro quiz
    rfl
  · intro quiz now qMsgId tMsgId newTimerHandle hst hge
    have hge2 : (nextQuestionAdvanced quiz).currentQuestionIndex ≥
        ((nextQuestionAdvanced quiz).questions.length : Int) := by
      simpa [nextQuestionAdvanced, clearTimers] using hge
    refine ⟨?_, rfl, rfl⟩
    simp [nextQuestion, if_pos hst, hge2]
  · intro quiz now qMsgId tMsgId newTimerHandle hst hlt
    have hlt2 : ¬((nextQuestionAdvanced quiz).currentQuestionIndex ≥
        ((nextQuestionAdvanced quiz).questions.length : Int)) := by
      simp only [nextQuestionAdvanced, clearTimers]
      omega
    refine ⟨?_, rfl⟩
    simp [nextQuestion, if_pos hst, if_neg hlt2]

/-- C8 witness: a completed session rejects `nextQuestion`; advancing an
intermission session whose questions are exhausted completes it and
produces the final leaderboard; advancing a setup session with questions
remaining posts the next question. -/
theorem claim8_progression_witness :
    nextQuestion (some (endQuizQuiz sampleRunningQuiz 99)) 0 1 2 3 =
      (some (endQuizQuiz sampleRunningQuiz 99), NextResult.notActive) ∧
    nextQuestion (some sampleIntermissionQuiz) 5 1 2 3 =
      (some (endQuizQuiz (nextQuestionAdvanced sampleIntermissionQuiz) 5),
       NextResult.finished
         (calculateResults
           (endQuizQuiz (nextQuestionAdvanced sampleIntermissionQuiz) 5))) ∧
    nextQuestion (some fullSetupQuiz) 5 1 2 3 =
      (some { nextQuestionAdvanced fullSetupQuiz with
                messages := { question := some 1, timer := some 2 }
                timers := { question := some 3, intermission := none,
                            countdown := none } },
       NextResult.posted) :=
  ⟨claim8_progression.1 (some (endQuizQuiz sampleRunningQuiz 99)) 0 1 2 3
      (by intro quiz hq; injection hq with hh; rw [← hh]; decide),
   (claim8_progression.2.2.1 sampleIntermissionQuiz 5 1 2 3
      (Or.inr (by decide)) (by decide)).1,
   (claim8_progression.2.2.2 fullSetupQuiz 5 1 2 3
      (Or.inl (by decide)) (by decide)).1⟩

/-- C1: the claim's scoring is what the shadowed streak-aware
`createParticipant` would have produced; with the effective declaration
(no streak fields) a fresh participant's streak is `NaN` after every
correct answer, `NaN >= 2` is false, and the streak bonus is never
awarded.  Evidence at the failing input: user 1's two consecutive
accepted correct answers each earn 2 points (1 base + 1 first-correct),
where the claim and the spec's section 8 worked example require 3 on the
second one (1 base + 1 first-correct + 1 streak bonus). -/
theorem claim1_streak_bonus_missing :
    (runEvents twoQuestionQuiz 1 sampleEvents).2 =
      [AnswerResult.accepted true true 2 JsNum.nan 0,
       AnswerResult.accepted true true 2 JsNum.nan 0] ∧
    (runEvents twoQuestionQuiz 1 sampleEvents).2.all isAcceptedCorrect =
      true := by decide


theorem leaderboardLe_trans (a b c : Participant)
    (h1 : leaderboardLe a b = true) (h2 : leaderboardLe b c = true) :
    leaderboardLe a c = true := by
  simp only [leaderboardLe, leaderboardCmp, decide_eq_true_eq] at h1 h2 ⊢
  split_ifs at h1 h2 ⊢ <;> omega

theorem leaderboardLe_total (a b : Participant) :
    (leaderboardLe a b || leaderboardLe b a) = true := by
  simp only [leaderboardLe, leaderboardCmp, Bool.or_eq_true,
    decide_eq_true_eq]
  split_ifs <;> omega

theorem leaderboardLe_iff (a b : Participant) :
    leaderboardLe a b = true ↔ leaderboardKeyLe a b := by
  simp only [leaderboardLe, leaderboardCmp, leaderboardKeyLe,
    decide_eq_true_eq]
  split_ifs <;> omega

/-- C7 counterexample: `calculateResults` has NO `userId` tiebreaker, so
two participants tied on score, correct answers and last response time
keep their supplied order; supplying the same set of records in the two
orders produces two different leaderboard orderings. -/
theorem claim7_counterexample :
    (tieQuizA.participants.map Prod.snd).Perm
      (tieQuizB.participants.map Prod.snd) ∧
    calculateResults tieQuizA ≠ calculateResults tieQuizB := by
  constructor
  · decide
  · rw [calculateResults, calculateResults,
      List.mergeSort_of_sorted (by decide),
      List.mergeSort_of_sorted (by decide)]
    decide

/-- C7 amended: `calculateResults` returns a permutation of the supplied
participant records ordered by score descending, then correct answer
count descending, then last response time ascending; there is no
`userId` tiebreaker, so records tied on all three keys stay in their
supplied (insertion) order and the result is deterministic only for a
fixed supply order. -/
theorem claim7_leaderboard_order (quiz : Quiz) :
    (calculateResults quiz).Perm (quiz.participants.map Prod.snd) ∧
    (calculateResults quiz).Pairwise leaderboardKeyLe := by
  constructor
  · exact List.mergeSort_perm _ _
  · have hs := @List.sorted_mergeSort Participant leaderboardLe
      (fun x y z => leaderboardLe_trans x y z)
      leaderboardLe_total (quiz.participants.map Prod.snd)
    exact List.Pairwise.imp (fun h => (leaderboardLe_iff _ _).1 h) hs

theorem processAnswer_cases (quiz : Quiz) (userId : Nat) (qI : Int)
    (aI now : Nat) :
    processAnswer quiz userId qI aI now = (quiz, AnswerResult.rejected) ∨
    processAnswer quiz userId qI aI now =
      (quiz, AnswerResult.alreadyAnswered) ∨
    (∃ question p0 pts1,
      quiz.status = Status.running ∧ quiz.currentQuestionIndex = qI ∧
      getQuestion quiz.questions qI = some question ∧
      ((mapGet quiz.participants userId = some p0 ∧
          pts1 = quiz.participants) ∨
        (mapGet quiz.participants userId = none ∧
          p0 = createParticipant userId ∧
          pts1 = mapSet quiz.participants userId
            (createParticipant userId))) ∧
      p0.responses.any (fun r => r.questionIndex == qI) = false) := by
  by_cases hg : quiz.status = Status.running ∧
      quiz.currentQuestionIndex = qI
  · obtain ⟨hst, hidx⟩ := hg
    cases hq : getQuestion quiz.questions qI with
    | none => exact Or.inl (processAnswer_no_question _ _ _ _ _ hst hidx hq)
    | some question =>
      cases hp : mapGet quiz.participants userId with
      | some p0 =>
        by_cases hdup :
            p0.responses.any (fun r => r.questionIndex == qI) = true
        · exact Or.inr (Or.inl
            (processAnswer_duplicate _ _ _ _ _ _ _ hst hidx hq hp hdup))
        · have hdup2 :
              p0.responses.any (fun r => r.questionIndex == qI) = false := by
            simpa using hdup
          exact Or.inr (Or.inr ⟨question, p0, quiz.participants, hst, hidx,
            rfl, Or.inl ⟨rfl, rfl⟩, hdup2⟩)
      | none =>
        exact Or.inr (Or.inr ⟨question, createParticipant userId,
          mapSet quiz.participants userId (createParticipant userId), hst,
          hidx, rfl, Or.inr ⟨rfl, rfl, rfl⟩, rfl⟩)
  · exact Or.inl (processAnswer_not_running _ _ _ _ _ hg)

theorem streakOf_of_hp (quiz : Quiz) (userId : Nat) (p0 : Participant)
    (pts1 : List (Nat × Participant))
    (hp : (mapGet quiz.participants userId = some p0 ∧
            pts1 = quiz.participants) ∨
          (mapGet quiz.participants userId = none ∧
            p0 = createParticipant userId ∧
            pts1 = mapSet quiz.participants userId
              (createParticipant userId))) :
    streakOf quiz userId = p0.streak := by
  rcases hp with ⟨hp, _⟩ | ⟨hp, hp0, _⟩
  · simp [streakOf, hp]
  · simp [streakOf, hp, hp0, createParticipant]

theorem streak_step_correct (quiz : Quiz) (userId : Nat) (qI : Int)
    (aI now : Nat) (f : Bool) (pts : Nat) (ns : JsNum) (sb : Nat)
    (h : (processAnswer quiz userId qI aI now).2 =
      AnswerResult.accepted true f pts ns sb) :
    streakOf (processAnswer quiz userId qI aI now).1 userId =
      (streakOf quiz userId).inc := by
  rcases processAnswer_cases quiz userId qI aI now with hc | hc |
    ⟨question, p0, pts1, hst, hidx, hq, hp, hdup⟩
  · rw [hc] at h; cases h
  · rw [hc] at h; cases h
  · rw [processAnswer_accept quiz userId qI aI now question p0 pts1 hst
      hidx hq hp hdup] at h ⊢
    have hcorr : (aI == question.correctAnswer) = true := by
      by_contra hcn
      have hcf : (aI == question.correctAnswer) = false := by
        simpa using hcn
      simp [hcf] at h
    rw [streakOf_of_hp quiz userId p0 pts1 hp]
    simp [streakOf, hcorr, mapGet_mapSet_self]

theorem streak_step_wrong (quiz : Quiz) (userId : Nat) (qI : Int)
    (aI now : Nat) (f : Bool) (pts : Nat) (ns : JsNum) (sb : Nat)
    (h : (processAnswer quiz userId qI aI now).2 =
      AnswerResult.accepted false f pts ns sb) :
    streakOf (processAnswer quiz userId qI aI now).1 userId =
      JsNum.num 0 := by
  rcases processAnswer_cases quiz userId qI aI now with hc | hc |
    ⟨question, p0, pts1, hst, hidx, hq, hp, hdup⟩
  · rw [hc] at h; cases h
  · rw [hc] at h; cases h
  · rw [processAnswer_accept quiz userId qI aI now question p0 pts1 hst
      hidx hq hp hdup] at h ⊢
    have hcorr : (aI == question.correctAnswer) = false := by
      by_contra hcn
      have hct : (aI == question.correctAnswer) = true := by
        simpa using hcn
      simp [hct] at h
    simp [streakOf, hcorr, mapGet_mapSet_self]

theorem handleQuestionTimeout_participants (quiz : Quiz) (qI : Int)
    (h : Nat) :
    ((handleQuestionTimeout (some quiz) qI h).getD quiz).participants =
      quiz.participants := by
  simp only [handleQuestionTimeout]
  split
  · split <;> simp
  · simp

theorem nextQuestion_participants (quiz : Quiz) (now q t h : Nat) :
    (((nextQuestion (some quiz) now q t h).1).getD quiz).participants =
      quiz.participants := by
  simp only [nextQuestion]
  split
  · split
    · simp [endQuizQuiz, clearTimers, nextQuestionAdvanced]
    · simp [nextQuestionAdvanced, clearTimers]
  · simp

theorem incIter_inc (x : JsNum) (n : Nat) :
    JsNum.incIter x.inc n = (JsNum.incIter x n).inc := by
  induction n with
  | zero => rfl
  | succ m ih => simp [JsNum.incIter, ih]

theorem runEvents_streak (userId : Nat) (evs : List Event) :
    ∀ quiz : Quiz,
      ((runEvents quiz userId evs).2.all isAcceptedCorrect) = true →
      streakOf (runEvents quiz userId evs).1 userId =
        (streakOf quiz userId).incIter
          (runEvents quiz userId evs).2.length := by
  induction evs with
  | nil => intro quiz _; simp [runEvents, JsNum.incIter]
  | cons e rest ih =>
    intro quiz hall
    cases e with
    | answer qI aI now =>
      have hrw : runEvents quiz userId (Event.answer qI aI now :: rest) =
          ((runEvents (processAnswer quiz userId qI aI now).1 userId
              rest).1,
           (processAnswer quiz userId qI aI now).2 ::
             (runEvents (processAnswer quiz userId qI aI now).1 userId
               rest).2) := by
        simp [runEvents, applyEvent]
      rw [hrw] at hall ⊢
      simp only [List.all_cons, Bool.and_eq_true] at hall
      obtain ⟨h1, h2⟩ := hall
      have hacc : ∃ f pts ns sb,
          (processAnswer quiz userId qI aI now).2 =
            AnswerResult.accepted true f pts ns sb := by
        cases hr : (processAnswer quiz userId qI aI now).2 with
        | rejected => rw [hr] at h1; simp [isAcceptedCorrect] at h1
        | alreadyAnswered => rw [hr] at h1; simp [isAcceptedCorrect] at h1
        | accepted c f pts ns sb =>
          cases c with
          | true => exact ⟨f, pts, ns, sb, rfl⟩
          | false => rw [hr] at h1; simp [isAcceptedCorrect] at h1
      obtain ⟨f, pts, ns, sb, hacc⟩ := hacc
      have hstep := streak_step_correct quiz userId qI aI now f pts ns sb
        hacc
      have hrest := ih (processAnswer quiz userId qI aI now).1 h2
      simp only [List.length_cons]
      rw [hrest, hstep, incIter_inc]
      rfl
    | timeout qI h =>
      have hrw : runEvents quiz userId (Event.timeout qI h :: rest) =
          runEvents ((handleQuestionTimeout (some quiz) qI h).getD quiz)
            userId rest := by
        simp [runEvents, applyEvent]
      rw [hrw] at hall ⊢
      have hpart := handleQuestionTimeout_participants quiz qI h
      have hstreak : streakOf
          ((handleQuestionTimeout (some quiz) qI h).getD quiz) userId =
          streakOf quiz userId := by
        simp [streakOf, hpart]
      rw [ih _ hall, hstreak]
    | advance now q t h =>
      have hrw : runEvents quiz userId (Event.advance now q t h :: rest) =
          runEvents (((nextQuestion (some quiz) now q t h).1).getD quiz)
            userId rest := by
        simp [runEvents, applyEvent]
      rw [hrw] at hall ⊢
      have hpart := nextQuestion_participants quiz now q t h
      have hstreak : streakOf
          (((nextQuestion (some quiz) now q t h).1).getD quiz) userId =
          streakOf quiz userId := by
        simp [streakOf, hpart]
      rw [ih _ hall, hstreak]

/-- C6: the claim is false of the program.  At the failing input — a
fresh participant giving k = 2 consecutive accepted correct answers
(question 0, timeout, advance, question 1) — the current streak is `NaN`
rather than 2, and `maxStreak >= currentStreak` is false (`NaN >= NaN`),
because the effective `createParticipant` (the later declaration, which
shadows the streak-aware one) creates no streak fields and
`participant.streak++` on `undefined` yields `NaN`.  Only the
wrong-answer half of the claim holds (`streak = 0` after an accepted
wrong answer, witnessed here on a concrete session). -/
theorem claim6_streak_nan :
    (runEvents twoQuestionQuiz 1 sampleEvents).2.all isAcceptedCorrect =
      true ∧
    streakOf (runEvents twoQuestionQuiz 1 sampleEvents).1 1 =
      JsNum.nan ∧
    (mapGet (runEvents twoQuestionQuiz 1 sampleEvents).1.participants
        1).map (fun p => jsGe p.maxStreak p.streak) = some false ∧
    streakOf (processAnswer sampleRunningQuiz 1 0 0 21).1 1 =
      JsNum.num 0 := by decide

theorem mem_of_mem_set {α : Type} (l : List α) (n : Nat) (b a : α)
    (h : a ∈ l.set n b) : a ∈ l ∨ a = b := by
  induction l generalizing n with
  | nil => simp [List.set] at h
  | cons x xs ih =>
    cases n with
    | zero =>
      rcases List.mem_cons.1 h with h1 | h1
      · exact Or.inr h1
      · exact Or.inl (List.mem_cons_of_mem _ h1)
    | succ m =>
      rcases List.mem_cons.1 h with h1 | h1
      · exact Or.inl (by simp [h1])
      · rcases ih m h1 with h2 | h2
        · exact Or.inl (List.mem_cons_of_mem _ h2)
        · exact Or.inr h2

theorem mem_of_mem_setQuestion (qs : List Question) (i : Int)
    (q a : Question) (h : a ∈ setQuestion qs i q) : a ∈ qs ∨ a = q := by
  unfold setQuestion at h
  by_cases h0 : 0 ≤ i
  · rw [if_pos h0] at h
    exact mem_of_mem_set qs i.toNat q a h
  · rw [if_neg h0] at h
    exact Or.inl h

theorem firstCorrectOk_append (question : Question) (response : Response)
    (hfc : firstCorrectOk question)
    (hflag : response.respIsFirst =
      (response.isCorrect && question.firstCorrectAnswer.isNone)) :
    firstCorrectOk
      { question with
          responses := question.responses ++ [response]
          firstCorrectAnswer :=
            if response.respIsFirst then
              some { userId := response.userId, time := response.time }
            else question.firstCorrectAnswer } := by
  obtain ⟨h1, h2, h3, h4⟩ := hfc
  cases hfca : question.firstCorrectAnswer with
  | some w =>
    have hflag2 : response.respIsFirst = false := by
      simp [hflag, hfca]
    obtain ⟨r0, hfind⟩ : ∃ r0,
        question.responses.find? (fun r2 => r2.isCorrect) = some r0 := by
      cases hf : question.responses.find? (fun r2 => r2.isCorrect) with
      | none => rw [h3 hf] at hfca; cases hfca
      | some r0 => exact ⟨r0, rfl⟩
    have hfindnew :
        (question.responses ++ [response]).find?
          (fun r2 => r2.isCorrect) = some r0 := by
      simp [List.find?_append, hfind]
    refine ⟨?_, ?_, ?_, ?_⟩
    · simpa [List.filter_append, hflag2] using h1
    · intro r' hr' hflag'
      rcases List.mem_append.1 hr' with hm | hm
      · simp [List.find?_append, h2 r' hm hflag']
      · have : r' = response := by simpa using hm
        rw [this] at hflag'
        rw [hflag2] at hflag'
        cases hflag'
    · intro hnone
      rw [hfindnew] at hnone
      cases hnone
    · intro r' hr' hfind'
      rw [hfindnew] at hfind'
      injection hfind' with he
      subst he
      have hold := h4 r0 (List.mem_of_find?_eq_some hfind) hfind
      have hww : some w = some { userId := r0.userId, time := r0.time } := by
        rw [← hfca, hold.1]
      injection hww with hww2
      simp [hflag2, hww2, hold.2]
  | none =>
    have hfindnone :
        question.responses.find? (fun r2 => r2.isCorrect) = none := by
      cases hf : question.responses.find? (fun r2 => r2.isCorrect) with
      | none => rfl
      | some r0 =>
        have := (h4 r0 (List.mem_of_find?_eq_some hf) hf).1
        rw [this] at hfca; cases hfca
    have hnoflag : ∀ r' ∈ question.responses, r'.respIsFirst = false := by
      intro r' hr'
      by_contra hcon
      have hcon2 : r'.respIsFirst = true := by simpa using hcon
      rw [h2 r' hr' hcon2] at hfindnone
      cases hfindnone
    have hflag2 : response.respIsFirst = response.isCorrect := by
      simp [hflag, hfca]
    cases hrc : response.isCorrect with
    | false =>
      have hflag3 : response.respIsFirst = false := by rw [hflag2, hrc]
      have hfindnew :
          (question.responses ++ [response]).find?
            (fun r2 => r2.isCorrect) = none := by
        simp [List.find?_append, hfindnone, List.find?_cons, hrc]
      refine ⟨?_, ?_, ?_, ?_⟩
      · simpa [List.filter_append, hflag3] using h1
      · intro r' hr' hflag'
        rcases List.mem_append.1 hr' with hm | hm
        · rw [hnoflag r' hm] at hflag'; cases hflag'
        · have : r' = response := by simpa using hm
          rw [this, hflag3] at hflag'; cases hflag'
      · intro _; simp [hflag3, hfca]
      · intro r' hr' hfind'
        rw [hfindnew] at hfind'
        cases hfind'
    | true =>
      have hflag3 : response.respIsFirst = true := by rw [hflag2, hrc]
      have hfindnew :
          (question.responses ++ [response]).find?
            (fun r2 => r2.isCorrect) = some response := by
        simp [List.find?_append, hfindnone, List.find?_cons, hrc]
      refine ⟨?_, ?_, ?_, ?_⟩
      · have hfilter : question.responses.filter
            (fun r => r.respIsFirst) = [] :=
          List.filter_eq_nil_iff.2 (by
            intro a ha
            simp [hnoflag a ha])
        simp [List.filter_append, hfilter, hflag3]
      · intro r' hr' hflag'
        rcases List.mem_append.1 hr' with hm | hm
        · rw [hnoflag r' hm] at hflag'; cases hflag'
        · have : r' = response := by simpa using hm
          rw [this, hfindnew]
      · intro hnone
        rw [hfindnew] at hnone
        cases hnone
      · intro r' hr' hfind'
        rw [hfindnew] at hfind'
        injection hfind' with he
        subst he
        simp [hflag3]

/-- C5: `processAnswer` preserves first-correct exclusivity — for every
question, at most one response carries the first-correct flag, the flag
and the `firstCorrectAnswer` marker belong exactly to the earliest
accepted correct response in processing order — and an already-set
marker is never reassigned. -/
theorem claim5_first_correct :
    (∀ quiz userId qI aI now,
      (∀ qn ∈ quiz.questions, firstCorrectOk qn) →
      ∀ qn' ∈ (processAnswer quiz userId qI aI now).1.questions,
        firstCorrectOk qn') ∧
    (∀ quiz userId qI aI now (i : Int) (qn : Question) (w : FirstWinner),
      getQuestion quiz.questions i = some qn →
      qn.firstCorrectAnswer = some w →
      (getQuestion (processAnswer quiz userId qI aI now).1.questions
          i).map (fun q2 => q2.firstCorrectAnswer) = some (some w)) := by
  constructor
  · intro quiz userId qI aI now hall qn' hmem
    rcases processAnswer_cases quiz userId qI aI now with hc | hc |
      ⟨question, p0, pts1, hst, hidx, hq, hp, hdup⟩
    · rw [hc] at hmem
      exact hall qn' hmem
    · rw [hc] at hmem
      exact hall qn' hmem
    · rw [processAnswer_accept quiz userId qI aI now question p0 pts1 hst
        hidx hq hp hdup] at hmem
      rcases mem_of_mem_setQuestion quiz.questions qI _ qn' hmem with
        hm | hm
      · exact hall qn' hm
      · rw [hm]
        have hqmem : question ∈ quiz.questions := by
          obtain ⟨h0, hlt, hget⟩ := (getQuestion_eq_some_iff _ _ _).1 hq
          exact List.get?_mem hget
        exact firstCorrectOk_append question _ (hall question hqmem) rfl
  · intro quiz userId qI aI now i qn w hqi hw
    rcases processAnswer_cases quiz userId qI aI now with hc | hc |
      ⟨question, p0, pts1, hst, hidx, hq, hp, hdup⟩
    · rw [hc]; simp [hqi, hw]
    · rw [hc]; simp [hqi, hw]
    · rw [processAnswer_accept quiz userId qI aI now question p0 pts1 hst
        hidx hq hp hdup]
      by_cases hiq : i = qI
      · subst hiq
        have hqq : qn = question := by
          rw [hqi] at hq
          injection hq
        obtain ⟨h0, hlt, _⟩ := (getQuestion_eq_some_iff _ _ _).1 hq
        have hset := getQuestion_setQuestion_self quiz.questions i
          { question with
              responses := question.responses ++
                [{ questionIndex := i
                   answerIndex := aI
                   time := now
                   isCorrect := aI == question.correctAnswer
                   userId := userId
                   respIsFirst := (aI == question.correctAnswer) &&
                     question.firstCorrectAnswer.isNone
                   points :=
                     if aI == question.correctAnswer then
                       (if question.firstCorrectAnswer.isNone then 2
                        else 1) +
                         (if (aI == question.correctAnswer) &&
                             (if aI == question.correctAnswer then
                                p0.streak.inc
                              else JsNum.num 0).ge2 then 1 else 0)
                     else 0
                   streakBonus :=
                     if (aI == question.correctAnswer) &&
                         (if aI == question.correctAnswer then
                            p0.streak.inc
                          else JsNum.num 0).ge2 then 1 else 0 }]
              firstCorrectAnswer :=
                if (aI == question.correctAnswer) &&
                    question.firstCorrectAnswer.isNone then
                  some { userId := userId, time := now }
                else question.firstCorrectAnswer } h0 hlt
        rw [hqq] at hw
        simp only [hset]
        simp [hw]
      · rw [getQuestion_setQuestion_ne quiz.questions qI i _ hiq]
        simp [hqi, hw]

/-- C5 witness: after a concrete accepted first correct answer the
answered question still satisfies first-correct exclusivity, and a
marker already set to user 1 survives a later correct answer by
user 2. -/
theorem claim5_first_correct_witness :
    firstCorrectOk
      ((processAnswer sampleRunningQuiz 1 0 1 20).1.questions.getD 0
        defaultQuestion) ∧
    (getQuestion (processAnswer dupQuiz 2 0 1 60).1.questions 0).map
        (fun q2 => q2.firstCorrectAnswer) =
      some (some { userId := 1, time := 10 }) :=
  ⟨claim5_first_correct.1 sampleRunningQuiz 1 0 1 20 (by decide) _
     (by decide),
   claim5_first_correct.2 dupQuiz 2 0 1 60 0
     (dupQuiz.questions.getD 0 defaultQuestion)
     { userId := 1, time := 10 } (by decide) (by decide)⟩

theorem getD_setQuestion_self (qs : List Question) (qI : Int)
    (q : Question) (h0 : 0 ≤ qI) (hlt : qI.toNat < qs.length) :
    (setQuestion qs qI q).getD qI.toNat defaultQuestion = q := by
  simp [setQuestion, h0, List.getD_eq_getElem?_getD,
    List.getElem?_set_self hlt]

theorem getD_setQuestion_ne (qs : List Question) (qI : Int) (q : Question)
    (n : Nat) (hne : n ≠ qI.toNat) :
    (setQuestion qs qI q).getD n defaultQuestion =
      qs.getD n defaultQuestion := by
  by_cases h0 : 0 ≤ qI
  · have hne2 : qI.toNat ≠ n := fun hh => hne hh.symm
    simp [setQuestion, h0, List.getD_eq_getElem?_getD,
      List.getElem?_set_ne hne2]
  · simp [setQuestion, h0]

theorem getD_of_getQuestion (qs : List Question) (i : Int) (q : Question)
    (hq : getQuestion qs i = some q) :
    qs.getD i.toNat defaultQuestion = q := by
  obtain ⟨h0, hlt, hget⟩ := (getQuestion_eq_some_iff _ _ _).1 hq
  rw [List.get?_eq_getElem?] at hget
  simp [List.getD_eq_getElem?_getD, hget]

theorem assoc_unique (m : List (Nat × Participant)) (hn : keysNodup m)
    (kp : Nat × Participant) (hm : kp ∈ m) (p0 : Participant)
    (hget : mapGet m kp.1 = some p0) : kp.2 = p0 := by
  have h2 := mapGet_eq_some_of_mem m kp hn hm
  rw [hget] at h2
  injection h2 with h3
  exact h3.symm

theorem respOnce_accept (quiz : Quiz) (userId : Nat) (qI : Int)
    (question question' : Question) (p0 p' : Participant)
    (pts1 : List (Nat × Participant)) (response : Response)
    (hro : respOnce quiz)
    (hq : getQuestion quiz.questions qI = some question)
    (hp : (mapGet quiz.participants userId = some p0 ∧
            pts1 = quiz.participants) ∨
          (mapGet quiz.participants userId = none ∧
            p0 = createParticipant userId ∧
            pts1 = mapSet quiz.participants userId
              (createParticipant userId)))
    (hdup : p0.responses.any (fun r => r.questionIndex == qI) = false)
    (hr_q : response.questionIndex = qI)
    (hr_u : response.userId = userId)
    (hp_r : p'.responses = p0.responses ++ [response])
    (hq_r : question'.responses = question.responses ++ [response]) :
    respOnce { quiz with
                 participants := mapSet pts1 userId p'
                 questions := setQuestion quiz.questions qI question' } := by
  obtain ⟨hnodup, hpart, hlink, hqdist⟩ := hro
  obtain ⟨h0, hlt, _⟩ := (getQuestion_eq_some_iff _ _ _).1 hq
  have hdupAll : ∀ r ∈ p0.responses, r.questionIndex ≠ qI := by
    intro r hr hcon
    have h2 : p0.responses.any (fun r2 => r2.questionIndex == qI) = true :=
      List.any_eq_true.2 ⟨r, hr, by simp [hcon]⟩
    rw [h2] at hdup
    cases hdup
  have hnodup1 : keysNodup pts1 := by
    rcases hp with ⟨_, rfl⟩ | ⟨_, _, rfl⟩
    · exact hnodup
    · exact keysNodup_mapSet _ _ _ hnodup
  have hp0pair : p0.responses.Pairwise
      (fun r1 r2 => r1.questionIndex ≠ r2.questionIndex) := by
    rcases hp with ⟨hpg, _⟩ | ⟨_, hp0c, _⟩
    · exact hpart (userId, p0) (mem_of_mapGet_eq_some _ _ _ hpg)
    · rw [hp0c]; simp [createParticipant]
  have htrans : ∀ r' : Response,
      (∃ kp ∈ quiz.participants, kp.1 = r'.userId ∧ r' ∈ kp.2.responses) →
      ∃ kp ∈ mapSet pts1 userId p',
        kp.1 = r'.userId ∧ r' ∈ kp.2.responses := by
    intro r' ⟨kp, hkpm, hkpu, hkpr⟩
    by_cases hcase : kp.1 = userId
    · rcases hp with ⟨hpg, hpts⟩ | ⟨hpg, hp0c, hpts⟩
      · have hk2 : kp.2 = p0 :=
          assoc_unique quiz.participants hnodup kp hkpm p0
            (by rw [hcase]; exact hpg)
        refine ⟨(userId, p'), self_mem_mapSet pts1 userId p', ?_, ?_⟩
        · rw [← hkpu, hcase]
        · rw [hp_r]
          exact List.mem_append_left _ (hk2 ▸ hkpr)
      · exact absurd hcase
          (mapGet_eq_none_of_not_mem quiz.participants userId hpg kp hkpm)
    · have hkp1 : kp ∈ pts1 := by
        rcases hp with ⟨_, hpts⟩ | ⟨_, _, hpts⟩
        · rw [hpts]; exact hkpm
        · rw [hpts]; exact mem_mapSet_of_mem _ _ _ kp hkpm hcase
      exact ⟨kp, mem_mapSet_of_mem _ _ _ kp hkp1 hcase, hkpu, hkpr⟩
  have howner : ∀ r' : Response, r'.userId = userId →
      (∃ kp ∈ quiz.participants, kp.1 = r'.userId ∧ r' ∈ kp.2.responses) →
      r' ∈ p0.responses := by
    intro r' hru ⟨kp, hkpm, hkpu, hkpr⟩
    rcases hp with ⟨hpg, _⟩ | ⟨hpg, _, _⟩
    · have hk2 : kp.2 = p0 :=
        assoc_unique quiz.participants hnodup kp hkpm p0
          (by rw [hkpu, hru]; exact hpg)
      exact hk2 ▸ hkpr
    · exact absurd (hkpu.trans hru)
        (mapGet_eq_none_of_not_mem quiz.participants userId hpg kp hkpm)
  refine ⟨?_, ?_, ?_, ?_⟩
  · exact keysNodup_mapSet _ _ _ hnodup1
  · intro kp hkp
    rcases mem_mapSet _ _ _ kp hkp with hm | hm
    · rcases hp with ⟨_, hpts⟩ | ⟨_, _, hpts⟩
      · rw [hpts] at hm
        exact hpart kp hm
      · rw [hpts] at hm
        rcases mem_mapSet _ _ _ kp hm with hm2 | hm2
        · exact hpart kp hm2
        · rw [hm2]; simp [createParticipant]
    · rw [hm]
      simp only [hp_r]
      rw [List.pairwise_append]
      refine ⟨hp0pair, by simp, ?_⟩
      intro a ha b hb
      have hbr : b = response := by simpa using hb
      rw [hbr, hr_q]
      exact hdupAll a ha
  · dsimp only
    intro n hn r' hr'
    have hn2 : n < quiz.questions.length := by
      simpa [setQuestion_length] using List.mem_range.1 hn
    by_cases hne : n = qI.toNat
    · subst hne
      rw [getD_setQuestion_self quiz.questions qI question' h0 hlt] at hr'
      rw [hq_r] at hr'
      rcases List.mem_append.1 hr' with hm | hm
      · have hold := hlink qI.toNat (List.mem_range.2 hn2) r'
          (by rw [getD_of_getQuestion quiz.questions qI question hq]
              exact hm)
        exact ⟨hold.1, htrans r' hold.2⟩
      · have hre : r' = response := by simpa using hm
        subst hre
        refine ⟨by rw [hr_q, Int.toNat_of_nonneg h0], ?_⟩
        refine ⟨(userId, p'), self_mem_mapSet pts1 userId p', hr_u.symm, ?_⟩
        rw [hp_r]
        exact List.mem_append_right _ (by simp)
    · rw [getD_setQuestion_ne quiz.questions qI question' n hne] at hr'
      have hold := hlink n (List.mem_range.2 hn2) r' hr'
      exact ⟨hold.1, htrans r' hold.2⟩
  · dsimp only
    intro n hn
    have hn2 : n < quiz.questions.length := by
      simpa [setQuestion_length] using List.mem_range.1 hn
    by_cases hne : n = qI.toNat
    · subst hne
      rw [getD_setQuestion_self quiz.questions qI question' h0 hlt, hq_r]
      rw [List.pairwise_append]
      refine ⟨by
        have h3 := hqdist qI.toNat (List.mem_range.2 hn2)
        rwa [getD_of_getQuestion quiz.questions qI question hq] at h3,
        by simp, ?_⟩
      intro a ha b hb
      have hbr : b = response := by simpa using hb
      rw [hbr, hr_u]
      intro hau
      have hold := hlink qI.toNat (List.mem_range.2 hn2) a
        (by rw [getD_of_getQuestion quiz.questions qI question hq]
            exact ha)
      have hmem0 := howner a hau hold.2
      have haq : a.questionIndex = qI := by
        rw [hold.1, Int.toNat_of_nonneg h0]
      exact hdupAll a hmem0 haq
    · rw [getD_setQuestion_ne quiz.questions qI question' n hne]
      exact hqdist n (List.mem_range.2 hn2)

/-- C4: a second submission by the same participant for the same
question is rejected as a duplicate with the session left completely
unchanged (no overwrite, no score/streak/response-list change), and
`processAnswer` preserves the at-most-one-response-per-(participant,
question) invariant `respOnce`. -/
theorem claim4_no_double :
    (∀ quiz userId qI aI now question p0,
      quiz.status = Status.running →
      quiz.currentQuestionIndex = qI →
      getQuestion quiz.questions qI = some question →
      mapGet quiz.participants userId = some p0 →
      p0.responses.any (fun r => r.questionIndex == qI) = true →
      processAnswer quiz userId qI aI now =
        (quiz, AnswerResult.alreadyAnswered)) ∧
    (∀ quiz userId qI aI now,
      respOnce quiz → respOnce (processAnswer quiz userId qI aI now).1) := by
  constructor
  · intro quiz userId qI aI now question p0 hst hidx hq hp hdup
    exact processAnswer_duplicate quiz userId qI aI now question p0 hst
      hidx hq hp hdup
  · intro quiz userId qI aI now hro
    rcases processAnswer_cases quiz userId qI aI now with hc | hc |
      ⟨question, p0, pts1, hst, hidx, hq, hp, hdup⟩
    · rw [hc]; exact hro
    · rw [hc]; exact hro
    · rw [processAnswer_accept quiz userId qI aI now question p0 pts1 hst
        hidx hq hp hdup]
      exact respOnce_accept quiz userId qI question _ p0 _ pts1 _ hro hq
        hp hdup rfl rfl rfl rfl

/-- C4 witness: user 1's second submission for question 0 is rejected
with the session unchanged, and the at-most-one-response invariant holds
after a concrete accepted submission. -/
theorem claim4_no_double_witness :
    processAnswer dupQuiz 1 0 2 50 =
      (dupQuiz, AnswerResult.alreadyAnswered) ∧
    respOnce (processAnswer dupQuiz 2 0 1 60).1 :=
  ⟨claim4_no_double.1 dupQuiz 1 0 2 50
     (dupQuiz.questions.getD 0 defaultQuestion) sampleAnswered
     (by decide) (by decide) (by decide) (by decide) (by decide),
   claim4_no_double.2 dupQuiz 2 0 1 60 (by decide)⟩

end DxQuiz
